import Mathlib

/-!
Verification of the orbit-vi data pipeline core
(`src/backend/app/pipeline/data2.py`) against its natural-language
specification.  The Python module is shallowly embedded: parameter values
become an inductive `PValue`, dictionaries become association lists with
Python-dict insertion semantics, pandas DataFrames become lists of rows,
and the external collaborators (`build_endpoint`, `fetch_f1_data`) become
function parameters.  Wall-clock values (`datetime.now()`) are injected as
arguments (`currentYear`, `now`).
-/

namespace OrbitVI

/-- Model of a Python parameter value: `None`, a string, an integer, or a
list of values (`data2.py` only ever distinguishes `str`, `list` and
"everything else"). -/
inductive PValue where
  | vNone : PValue
  | vStr : String → PValue
  | vInt : Int → PValue
  | vList : List PValue → PValue

mutual
/-- Decidable equality on `PValue` (hand-written: the automatic deriving
does not handle the nested list). -/
def PValue.decEq : (a b : PValue) → Decidable (a = b)
  | .vNone, .vNone => .isTrue rfl
  | .vNone, .vStr _ => .isFalse (fun h => PValue.noConfusion h)
  | .vNone, .vInt _ => .isFalse (fun h => PValue.noConfusion h)
  | .vNone, .vList _ => .isFalse (fun h => PValue.noConfusion h)
  | .vStr _, .vNone => .isFalse (fun h => PValue.noConfusion h)
  | .vStr a, .vStr b =>
      match String.decEq a b with
      | .isTrue h => .isTrue (by rw [h])
      | .isFalse h => .isFalse (fun hh => h (by cases hh; rfl))
  | .vStr _, .vInt _ => .isFalse (fun h => PValue.noConfusion h)
  | .vStr _, .vList _ => .isFalse (fun h => PValue.noConfusion h)
  | .vInt _, .vNone => .isFalse (fun h => PValue.noConfusion h)
  | .vInt _, .vStr _ => .isFalse (fun h => PValue.noConfusion h)
  | .vInt a, .vInt b =>
      match Int.decEq a b with
      | .isTrue h => .isTrue (by rw [h])
      | .isFalse h => .isFalse (fun hh => h (by cases hh; rfl))
  | .vInt _, .vList _ => .isFalse (fun h => PValue.noConfusion h)
  | .vList _, .vNone => .isFalse (fun h => PValue.noConfusion h)
  | .vList _, .vStr _ => .isFalse (fun h => PValue.noConfusion h)
  | .vList _, .vInt _ => .isFalse (fun h => PValue.noConfusion h)
  | .vList a, .vList b =>
      match PValue.decEqList a b with
      | .isTrue h => .isTrue (by rw [h])
      | .isFalse h => .isFalse (fun hh => h (by cases hh; rfl))

/-- Decidable equality on lists of `PValue`. -/
def PValue.decEqList : (a b : List PValue) → Decidable (a = b)
  | [], [] => .isTrue rfl
  | [], _ :: _ => .isFalse (fun h => List.noConfusion h)
  | _ :: _, [] => .isFalse (fun h => List.noConfusion h)
  | x :: xs, y :: ys =>
      match PValue.decEq x y, PValue.decEqList xs ys with
      | .isTrue h1, .isTrue h2 => .isTrue (by rw [h1, h2])
      | .isFalse h1, _ => .isFalse (fun h => h1 (by cases h; rfl))
      | .isTrue _, .isFalse h2 => .isFalse (fun h => h2 (by cases h; rfl))
end

instance : DecidableEq PValue := PValue.decEq

/-- Parameter mappings (`Dict[str, Any]`) as ordered association lists;
Python dicts preserve insertion order. -/
abbrev Params := List (String × PValue)

/-- ASCII whitespace recognized by Python `str.strip()`. -/
def isPySpace (c : Char) : Bool :=
  c = ' ' || c = '\t' || c = '\n' || c = '\x0d' || c = '\x0b' || c = '\x0c'

/-- Python `str.strip()` on the character-list level: drop leading and
trailing whitespace. -/
def stripChars (l : List Char) : List Char :=
  (l.dropWhile isPySpace).rdropWhile isPySpace

/-- Python `str.strip()`. -/
def pyStrip (s : String) : String := String.mk (stripChars s.data)

/-- ASCII lower-casing of one character, as Python `str.lower()` does for
the ASCII range used by this pipeline. -/
def lowerChar (c : Char) : Char :=
  if 65 ≤ c.toNat ∧ c.toNat ≤ 90 then Char.ofNat (c.toNat + 32) else c

/-- Python `str.lower()` (ASCII). -/
def pyLower (s : String) : String := String.mk (s.data.map lowerChar)

/-- One character of Python `str.replace(' ', '_')`. -/
def replChar (c : Char) : Char := if c = ' ' then '_' else c

/-- Python `str.replace(' ', '_')` (single-character needle, hence a map). -/
def pyReplaceSpace (s : String) : String := String.mk (s.data.map replChar)

/-- Whether `n` occurs as a contiguous block at the head of `h`. -/
def subAt : List Char → List Char → Bool
  | [], _ => true
  | _ :: _, [] => false
  | a :: as, b :: bs => a = b && subAt as bs

/-- Whether `n` occurs as a contiguous block anywhere in `h`. -/
def listContainsSub (n : List Char) : List Char → Bool
  | [] => subAt n []
  | b :: bs => subAt n (b :: bs) || listContainsSub n bs

/-- Python substring test `needle in hay`. -/
def pyIn (needle hay : String) : Bool := listContainsSub needle.data hay.data

/-- Digits of a decimal number accumulated to a natural number. -/
def digitsToNat (l : List Char) : Nat :=
  l.foldl (fun a c => a * 10 + (c.toNat - 48)) 0

/-- Python `int(s)` on a string: strip whitespace, optional sign, digits;
`none` models the `ValueError` raised otherwise. -/
def parsePyInt (s : String) : Option Int :=
  let t := stripChars s.data
  let signDigits : Int × List Char :=
    match t with
    | '-' :: rest => (-1, rest)
    | '+' :: rest => (1, rest)
    | l => (1, l)
  if signDigits.2 = [] ∨ ¬ signDigits.2.all Char.isDigit then none
  else some (signDigits.1 * (digitsToNat signDigits.2 : Int))

mutual
/-- Python `repr` of a value, used inside `str` of a list. -/
def pyRepr : PValue → String
  | .vNone => "None"
  | .vStr s => "\x27" ++ s ++ "\x27"
  | .vInt n => toString n
  | .vList l => "[" ++ String.intercalate ", " (pyReprList l) ++ "]"

/-- Python `repr` applied elementwise to a list of values. -/
def pyReprList : List PValue → List String
  | [] => []
  | x :: xs => pyRepr x :: pyReprList xs
end

/-- Python `str` of a value. -/
def pyStr : PValue → String
  | .vNone => "None"
  | .vStr s => s
  | .vInt n => toString n
  | .vList l => "[" ++ String.intercalate ", " (pyReprList l) ++ "]"

/-- Python `str(params.get(k, ''))`: stringify a possibly-missing value
with the empty string as default. -/
def pyStrOpt : Option PValue → String
  | none => ""
  | some v => pyStr v

/-- Python `d.get(k)` on an association list (first binding wins, as dict
keys are unique). -/
def lookupParam (ps : Params) (k : String) : Option PValue :=
  (ps.find? (fun kv => kv.1 = k)).map (fun kv => kv.2)

/-- Python dict assignment `d[k] = v`: overwrite in place if the key
exists, otherwise append at the end. -/
def dictInsert {α : Type} (d : List (String × α)) (k : String) (v : α) :
    List (String × α) :=
  if d.any (fun kv => kv.1 = k) then
    d.map (fun kv => if kv.1 = k then (k, v) else kv)
  else d ++ [(k, v)]

/-- Python `del d[k]` / dict comprehension dropping key `k`. -/
def eraseKey {α : Type} (d : List (String × α)) (k : String) :
    List (String × α) :=
  d.filter (fun kv => kv.1 ≠ k)

/-- One row of a pandas DataFrame, as an ordered column-to-cell mapping. -/
abbrev Row := List (String × PValue)

/-- A pandas DataFrame, as its ordered list of rows (`df.empty` is row
emptiness; `pd.concat(..., ignore_index=True)` is list append). -/
abbrev DataFrame := List Row

/-- Value of column `col` in a row. -/
def rowLookup (r : Row) (col : String) : Option PValue :=
  (r.find? (fun kv => kv.1 = col)).map (fun kv => kv.2)

/-- Pandas column assignment `df[col] = v` on one row: overwrite the
column in place if present, otherwise append it as the last column. -/
def setCell (r : Row) (col : String) (v : PValue) : Row := dictInsert r col v

/-- Pandas column assignment `df[col] = v` applied to every row. -/
def setColumn (df : DataFrame) (col : String) (v : PValue) : DataFrame :=
  df.map (fun r => setCell r col v)

/-- The `DataRequirements` record: endpoint identifier plus parameters. -/
structure Requirements where
  endpoint : String
  params : Params
deriving DecidableEq

/-- One atomic fetchable unit produced by `DataRequirementsSplitter`; the
source represents it as a dict with keys `endpoint`, `params`, `metadata`
(the grouping tag). -/
structure SplitUnit where
  endpoint : String
  params : Params
  metadata : List (String × PValue)
deriving DecidableEq

/-- Python `int(v)` on a parameter value (`int` of an int or of a numeric
string; anything else raises, modelled as `none`). -/
def pvInt : PValue → Option Int
  | .vInt n => some n
  | .vStr s => parsePyInt s
  | _ => none

/-- Minimum of a list of integers (the source only takes it of non-empty
lists). -/
def intListMin : List Int → Int
  | [] => 0
  | x :: xs => xs.foldl min x

/-- Maximum of a list of integers (the source only takes it of non-empty
lists). -/
def intListMax : List Int → Int
  | [] => 0
  | x :: xs => xs.foldl max x

/-- Python `range(a, b + 1)` over integers. -/
def intRange (a b : Int) : List Int :=
  (List.range (b + 1 - a).toNat).map (fun i => a + (i : Int))

/-- Base params of a historical split: the original params minus the
`year`/`season` keys (dict comprehension at line 53 of the source). -/
def histBaseParams (ps : Params) : Params :=
  ps.filter (fun kv => kv.1 ≠ "year" ∧ kv.1 ≠ "season")

/-- First stage of `split_historical`: the `(start_year, end_year)` pair
produced by the `if`/`elif` chain at lines 34-47, where `start_year` may
still be Python `None` and the whole computation may raise `ValueError`
from `int()` (modelled as the outer `none`).  `currentYear` injects
`datetime.now().year`. -/
def histYearBounds (currentYear : Int) (ps : Params) :
    Option (Option Int × Int) :=
  match lookupParam ps "year" with
  | some (.vList years) =>
      if years.isEmpty then some (none, currentYear)
      else
        match years.mapM pvInt with
        | none => none
        | some ints => some (some (intListMin ints), intListMax ints)
  | _ =>
    match lookupParam ps "season" with
    | some (.vList years) =>
        if years.isEmpty then some (none, currentYear)
        else
          match years.mapM pvInt with
          | none => none
          | some ints => some (some (intListMin ints), intListMax ints)
    | _ =>
      if pyIn "since" (pyStrOpt (lookupParam ps "year")) then
        match parsePyInt (pyStrip
            (((pyStrOpt (lookupParam ps "year")).splitOn "since").getLastD "")) with
        | none => none
        | some n => some (some n, currentYear)
      else if pyIn "last decade" (pyStrOpt (lookupParam ps "year")) then
        some (some (currentYear - 10), currentYear)
      else
        some (none, currentYear)

/-- The `DataRequirementsSplitter.split_historical` static method.
`none` models a propagated `ValueError` from `int()`.  Note the source's
`if not start_year` at line 49: Python treats `0` as falsy, so a computed
`start_year` of `0` is replaced by `end_year - 5` just like `None`. -/
def splitHistorical (currentYear : Int) (req : Requirements) :
    Option (List SplitUnit) :=
  match histYearBounds currentYear req.params with
  | none => none
  | some (startOpt, endYear) =>
    let startYear : Int :=
      match startOpt with
      | some s => if s = 0 then endYear - 5 else s
      | none => endYear - 5
    some ((intRange startYear endYear).map (fun y =>
      { endpoint := req.endpoint
        params := histBaseParams req.params ++ [("year", .vStr (toString y))]
        metadata := [("year", .vInt y)] }))

/-- The fixed metric table of `split_career` (endpoint, tag key). -/
def careerMetrics : List (String × String) :=
  [("DRIVERS.specific", "career_stats"),
   ("RESULTS.race", "race_results"),
   ("QUALIFYING.race", "qualifying_results"),
   ("STANDINGS.driver_season", "championship_standings")]

/-- The `DataRequirementsSplitter.split_career` static method: one unit
per fixed metric, params passed through unchanged. -/
def splitCareer (req : Requirements) : List SplitUnit :=
  careerMetrics.map (fun m =>
    { endpoint := m.1
      params := req.params
      metadata := [("metric", .vStr m.2)] })

/-- Python `isinstance(v, list) and len(v) > 1` on an optional parameter
value. -/
def isListLongerThanOne : Option PValue → Bool
  | some (.vList l) => l.length > 1
  | _ => false

/-- Python `isinstance(v, list)` on an optional parameter value. -/
def isListValue : Option PValue → Bool
  | some (.vList _) => true
  | _ => false

/-- The `DataPipeline._is_historical_query` predicate. -/
def isHistoricalQuery (req : Requirements) : Bool :=
  isListLongerThanOne (lookupParam req.params "year") ||
  isListLongerThanOne (lookupParam req.params "season") ||
  (["since", "from", "decade", "between"].any (fun t =>
    pyIn t (pyLower (pyStrOpt (lookupParam req.params "year")))))

/-- The `DataPipeline._is_career_query` predicate. -/
def isCareerQuery (req : Requirements) : Bool :=
  ["career", "all time", "lifetime", "overall"].any (fun t =>
    pyIn t (pyLower (pyStrOpt (lookupParam req.params "query"))))

/-- The `DataPipeline._is_multi_entity_query` predicate. -/
def isMultiEntityQuery (req : Requirements) : Bool :=
  isListValue (lookupParam req.params "driver") ||
  isListValue (lookupParam req.params "constructor")

/-- The four processing strategies selectable by `DataPipeline.process`. -/
inductive QueryType where
  | historical | career | multiEntity | single
deriving DecidableEq

/-- The strategy-selection `if`/`elif` chain of `DataPipeline.process`
(lines 94-101): fixed priority order, first match wins. -/
def classify (req : Requirements) : QueryType :=
  if isHistoricalQuery req then .historical
  else if isCareerQuery req then .career
  else if isMultiEntityQuery req then .multiEntity
  else .single

/-- The `season` → `year` key rename of `_normalize_params`. -/
def renameKey (k : String) : String := if k = "season" then "year" else k

/-- Per-element normalization inside a list value: strings are
driver-mangled or stripped, other elements pass through unchanged. -/
def normElem (k : String) : PValue → PValue
  | .vStr s =>
      if k = "driver" then .vStr (pyReplaceSpace (pyLower s))
      else .vStr (pyStrip s)
  | v => v

/-- Value normalization for one (renamed) key: strings are driver-mangled
or stripped, lists elementwise, other scalars pass through unchanged. -/
def normValue (k : String) : PValue → PValue
  | .vStr s =>
      if k = "driver" then .vStr (pyReplaceSpace (pyLower s))
      else .vStr (pyStrip s)
  | .vList l => .vList (l.map (normElem k))
  | v => v

/-- The loop body of `_normalize_params` over the remaining input pairs,
with `acc` the dict built so far. -/
def normAux (acc : Params) : List (String × PValue) → Params
  | [] => acc
  | (k, v) :: rest =>
      if v = .vNone || v = .vStr "" then normAux acc rest
      else
        normAux (dictInsert acc (renameKey k) (normValue (renameKey k) v)) rest

/-- The `DataPipeline._normalize_params` method. -/
def normalizeParams (ps : Params) : Params := normAux [] ps

/-- Behaviour of one `fetch_f1_data` invocation, as seen by the caller:
it raised, it returned a non-dict value, or it returned a response dict
`{success, data, error}` (`data` is a DataFrame or `None`). -/
inductive FetchOutcome where
  | raised : String → FetchOutcome
  | nonDict : String → FetchOutcome
  | resp : Bool → Option DataFrame → Option String → FetchOutcome

/-- The dict returned by `_process_single`: `success`, `data` (either
`None` or `{'results': df}`, modelled as the optional df), `error`, and
the claim-relevant metadata entries (`attempt`, `rows`, `timestamp`). -/
structure UnitResult where
  success : Bool
  data : Option DataFrame
  error : Option String
  attempt : Option Nat
  rows : Option Nat
  timestamp : String
deriving DecidableEq

/-- Python `error or default` on an optional string (`None` and the empty
string are falsy). -/
def pyOrStr (o : Option String) (dflt : String) : String :=
  match o with
  | some s => if s = "" then dflt else s
  | none => dflt

/-- The `max_retries` constant of `_process_single`. -/
def maxRetries : Nat := 3

/-- The `retry_delay` constant of `_process_single`, in seconds. -/
def retryDelay : ℚ := 1

/-- Trace of the observable effects of one `_process_single` call: how
many times `fetch_f1_data` was invoked and the backoff sleeps performed,
in order. -/
structure SingleTrace where
  fetches : Nat
  sleeps : List ℚ
deriving DecidableEq

/-- Failure result for a null / endpoint-less requirements object. -/
def invalidReqResult (now : String) : UnitResult :=
  ⟨false, none, some "Invalid requirements format", none, none, now⟩

/-- Failure result for an empty endpoint or empty normalized params. -/
def missingParamsResult (now : String) : UnitResult :=
  ⟨false, none, some "Missing required parameters", none, none, now⟩

/-- Failure result when `build_endpoint` returns a falsy value. -/
def buildFailResult (now : String) : UnitResult :=
  ⟨false, none, some "Failed to build endpoint", none, none, now⟩

/-- Failure result when `fetch_f1_data` returns a non-dict value. -/
def invalidTypeResult (now tyName : String) (attempt : Nat) : UnitResult :=
  ⟨false, none, some ("Invalid response type: " ++ tyName),
   some (attempt + 1), none, now⟩

/-- Success result wrapping the fetched DataFrame. -/
def fetchSuccessResult (now : String) (df : DataFrame) (attempt : Nat) :
    UnitResult :=
  ⟨true, some df, none, some (attempt + 1), some df.length, now⟩

/-- Failure result after the last attempt yielded no DataFrame. -/
def noDataResult (now : String) (err : Option String) (attempt : Nat) :
    UnitResult :=
  ⟨false, none, some (pyOrStr err "No data retrieved"),
   some (attempt + 1), none, now⟩

/-- Failure result after the last attempt raised. -/
def processingErrorResult (now msg : String) (attempt : Nat) : UnitResult :=
  ⟨false, none, some ("Processing error: " ++ msg),
   some (attempt + 1), none, now⟩

/-- Defensive failure result if the retry loop falls through. -/
def maxRetriesResult (now : String) : UnitResult :=
  ⟨false, none, some "Max retries exceeded", none, none, now⟩

/-- The `for attempt in range(max_retries)` loop of `_process_single`.
`attempt` is the Python loop index and the second argument is the number
of loop iterations still available (`maxRetries - attempt` at every real
call site); exhausting it is exactly the loop running off its end, which
yields the defensive `Max retries exceeded` return.  `be` and `fetch`
give the behaviour of the external collaborators on each attempt. -/
def singleLoop (be : Nat → String → Params → Option String)
    (fetch : Nat → FetchOutcome) (now ep : String) (ps : Params) :
    Nat → Nat → UnitResult × SingleTrace
  | _, 0 => (maxRetriesResult now, ⟨0, []⟩)
  | attempt, rem + 1 =>
    match be attempt ep ps with
    | none => (buildFailResult now, ⟨0, []⟩)
    | some fullEp =>
      if fullEp = "" then (buildFailResult now, ⟨0, []⟩)
      else
        match fetch attempt with
        | .nonDict tyName => (invalidTypeResult now tyName attempt, ⟨1, []⟩)
        | .raised msg =>
            if attempt < maxRetries - 1 then
              let next := singleLoop be fetch now ep ps (attempt + 1) rem
              (next.1, ⟨next.2.fetches + 1,
                        retryDelay * ((attempt : ℚ) + 1) :: next.2.sleeps⟩)
            else (processingErrorResult now msg attempt, ⟨1, []⟩)
        | .resp ok data err =>
            match ok, data with
            | true, some df => (fetchSuccessResult now df attempt, ⟨1, []⟩)
            | _, _ =>
                if attempt < maxRetries - 1 then
                  let next := singleLoop be fetch now ep ps (attempt + 1) rem
                  (next.1, ⟨next.2.fetches + 1,
                            retryDelay * ((attempt : ℚ) + 1) :: next.2.sleeps⟩)
                else (noDataResult now err attempt, ⟨1, []⟩)

/-- The `DataPipeline._process_single` method.  A `none` requirements
models a null object or one without an `endpoint` attribute. -/
def processSingle (be : Nat → String → Params → Option String)
    (fetch : Nat → FetchOutcome) (now : String)
    (req : Option Requirements) : UnitResult × SingleTrace :=
  match req with
  | none => (invalidReqResult now, ⟨0, []⟩)
  | some r =>
    let ps := normalizeParams r.params
    if r.endpoint = "" ∨ ps.isEmpty then (missingParamsResult now, ⟨0, []⟩)
    else singleLoop be fetch now r.endpoint ps 0 maxRetries

/-- Outcome of one gathered task as the merge loops see it: either a
raised exception (captured by `return_exceptions=True`) or a result
dict. -/
inductive UnitOutcome where
  | exn : String → UnitOutcome
  | res : UnitResult → UnitOutcome

/-- Accumulator of the row-concatenation merge loops: the running
`success` flag, merged DataFrame and error list. -/
structure MergeAcc where
  success : Bool
  results : DataFrame
  errors : List String
deriving DecidableEq

/-- One iteration of the row-concatenation merge loop (lines 155-174 and
291-310 of the source).  The item carries the error-message context
string, the value for the added grouping column, and the unit outcome. -/
def rowMergeStep (col : String) (acc : MergeAcc)
    (it : String × PValue × UnitOutcome) : MergeAcc :=
  match it.2.2 with
  | .exn msg =>
      { acc with
        success := false
        errors := acc.errors ++
          ["Error processing " ++ it.1 ++ ": " ++ msg] }
  | .res r =>
      if !r.success then
        { acc with
          success := false
          errors := acc.errors ++
            ["Failed to process " ++ it.1 ++ ": " ++
              r.error.getD "Unknown error"] }
      else
        match r.data with
        | none => acc
        | some df =>
            if df.isEmpty then acc
            else
              { acc with results :=
                  if acc.results.isEmpty then setColumn df col it.2.1
                  else acc.results ++ setColumn df col it.2.1 }

/-- The whole row-concatenation merge loop, starting from `success=True`,
an empty DataFrame and no errors. -/
def rowMergeLoop (col : String)
    (items : List (String × PValue × UnitOutcome)) : MergeAcc :=
  items.foldl (rowMergeStep col) ⟨true, [], []⟩

/-- The `data` payload of a `PipelineResponse`: a single merged table
(historical / multi-entity) or a metric-keyed family of tables
(career). -/
inductive RespData where
  | table : DataFrame → RespData
  | keyed : List (String × DataFrame) → RespData
deriving DecidableEq

/-- The top-level response dict of the pipeline (success, data, error,
and the `metadata.timestamp` entry, which every constructed response
carries). -/
structure PipelineResponse where
  success : Bool
  data : Option RespData
  error : Option String
  timestamp : String
deriving DecidableEq

/-- The merge-and-wrap part of `_process_historical`: each item pairs a
split unit's year tag with its gathered outcome, in split order. -/
def histMergeItems (items : List (Int × UnitOutcome)) :
    List (String × PValue × UnitOutcome) :=
  items.map (fun it => ("year " ++ toString it.1, PValue.vInt it.1, it.2))

/-- The response built by `_process_historical` from the gathered unit
outcomes (lines 150-185 of the source). -/
def processHistoricalResp (now : String) (items : List (Int × UnitOutcome)) :
    PipelineResponse :=
  let acc := rowMergeLoop "year" (histMergeItems items)
  { success := acc.success && !acc.results.isEmpty
    data := if acc.results.isEmpty then none else some (.table acc.results)
    error := if acc.errors.isEmpty then none
             else some (String.intercalate "; " acc.errors)
    timestamp := now }

/-- Accumulator of the keyed career merge loop. -/
structure KeyedAcc where
  success : Bool
  merged : List (String × DataFrame)
  errors : List String
deriving DecidableEq

/-- One iteration of the keyed career merge loop (lines 207-221): the
item pairs a metric tag with its gathered outcome. -/
def careerMergeStep (acc : KeyedAcc) (it : String × UnitOutcome) : KeyedAcc :=
  match it.2 with
  | .exn msg =>
      { acc with
        success := false
        errors := acc.errors ++
          ["Error processing " ++ it.1 ++ ": " ++ msg] }
  | .res r =>
      if !r.success then
        { acc with
          success := false
          errors := acc.errors ++
            ["Failed to process " ++ it.1 ++ ": " ++
              r.error.getD "Unknown error"] }
      else
        match r.data with
        | none => acc
        | some df => { acc with merged := dictInsert acc.merged it.1 df }

/-- The whole keyed career merge loop. -/
def careerMergeLoop (items : List (String × UnitOutcome)) : KeyedAcc :=
  items.foldl careerMergeStep ⟨true, [], []⟩

/-- The response built by `_process_career` from the gathered unit
outcomes (lines 187-232 of the source). -/
def processCareerResp (now : String) (items : List (String × UnitOutcome)) :
    PipelineResponse :=
  let acc := careerMergeLoop items
  { success := acc.success && acc.merged.any (fun kv => !kv.2.isEmpty)
    data := if acc.merged.isEmpty then none else some (.keyed acc.merged)
    error := if acc.errors.isEmpty then none
             else some (String.intercalate "; " acc.errors)
    timestamp := now }

/-- The entity-extraction prologue of `_process_parallel` (lines
243-250): the entity-type key, the entity list and the base params with
that key deleted, or `none` when neither `driver` nor `constructor` is a
list. -/
def extractEntities (ps : Params) :
    Option (String × List PValue × Params) :=
  match lookupParam ps "driver" with
  | some (.vList l) => some ("driver", l, eraseKey ps "driver")
  | _ =>
    match lookupParam ps "constructor" with
    | some (.vList l) => some ("constructor", l, eraseKey ps "constructor")
    | _ => none

/-- The immediate failure response of `_process_parallel` when no
entities are found (lines 252-260). -/
def noEntitiesResp (now : String) : PipelineResponse :=
  ⟨false, none, some "No parallel entities found", now⟩

/-- The per-entity requirements and dispatch outcomes of
`_process_parallel`, in entity-list order; `disp` gives the outcome of
`_process_single` on each constructed requirements. -/
def parallelItems (disp : Requirements → UnitOutcome)
    (endpoint ety : String) (base : Params) (ents : List PValue) :
    List (String × PValue × UnitOutcome) :=
  ents.map (fun e => (pyStr e, e, disp ⟨endpoint, dictInsert base ety e⟩))

/-- The merge-and-wrap tail of `_process_parallel` for a non-empty
entity list (lines 286-323 of the source). -/
def parallelMergeResp (now : String) (disp : Requirements → UnitOutcome)
    (endpoint ety : String) (base : Params) (ents : List PValue) :
    PipelineResponse :=
  let acc := rowMergeLoop ety (parallelItems disp endpoint ety base ents)
  { success := acc.success && !acc.results.isEmpty
    data := if acc.results.isEmpty then none
            else some (.table acc.results)
    error := if acc.errors.isEmpty then none
             else some (String.intercalate "; " acc.errors)
    timestamp := now }

/-- The `DataPipeline._process_parallel` method (batching elided: the
gathered outcomes arrive in entity order either way), paired with the
number of per-entity dispatches it performs. -/
def processParallelResp (now : String) (disp : Requirements → UnitOutcome)
    (req : Requirements) : PipelineResponse × Nat :=
  match extractEntities req.params with
  | none => (noEntitiesResp now, 0)
  | some (ety, ents, base) =>
      if ents.isEmpty then (noEntitiesResp now, 0)
      else (parallelMergeResp now disp req.endpoint ety base ents,
        ents.length)

/-- A unit outcome that is a non-exception result reporting success
(boolean form). -/
def outcomeOkB : UnitOutcome → Bool
  | .res r => r.success
  | .exn _ => false

/-- A unit outcome that is a non-exception result reporting success. -/
def outcomeOk (o : UnitOutcome) : Prop :=
  ∃ r, o = .res r ∧ r.success = true

/-- A unit outcome that reports success but returns no rows: its data is
absent or an empty dataset. -/
def outcomeEmptyOk (o : UnitOutcome) : Prop :=
  ∃ r, o = .res r ∧ r.success = true ∧ (r.data = none ∨ r.data = some [])

/-- The rows a single item contributes to a row-concatenation merge:
`none` for an exception, a failure, absent data or an empty dataset;
otherwise the unit's dataset with the grouping column set on every
row. -/
def contributedDf (col : String) (it : String × PValue × UnitOutcome) :
    Option DataFrame :=
  match it.2.2 with
  | .exn _ => none
  | .res r =>
      if r.success then
        match r.data with
        | some df => if df.isEmpty then none else some (setColumn df col it.2.1)
        | none => none
      else none

/-- Case-insensitive substring containment, as the specification words
it. -/
def containsCI (needle hay : String) : Bool :=
  pyIn (pyLower needle) (pyLower hay)

/-- Modelled from the spec's classifier wording (section 4.1, rule 1):
`year` (or `season`) is a list with more than one element, or the
stringified `year` contains one of the four historical markers
case-insensitively. -/
def SpecHistorical (req : Requirements) : Prop :=
  (∃ l, (lookupParam req.params "year" = some (.vList l) ∨
         lookupParam req.params "season" = some (.vList l)) ∧ 1 < l.length) ∨
  (∃ t ∈ (["since", "from", "decade", "between"] : List String),
    containsCI t (pyStrOpt (lookupParam req.params "year")) = true)

/-- Modelled from the spec's classifier wording (section 4.1, rule 2):
the stringified free-text `query` contains one of the four career markers
case-insensitively. -/
def SpecCareer (req : Requirements) : Prop :=
  ∃ t ∈ (["career", "all time", "lifetime", "overall"] : List String),
    containsCI t (pyStrOpt (lookupParam req.params "query")) = true

/-- Modelled from the spec's classifier wording (section 4.1, rule 3):
the `driver` or `constructor` parameter is a list. -/
def SpecMultiEntity (req : Requirements) : Prop :=
  ∃ l, lookupParam req.params "driver" = some (.vList l) ∨
       lookupParam req.params "constructor" = some (.vList l)

/-- The career metric tags of the split units, as the merge loop reads
them (`split_reqs[i]['metadata']['metric']`), paired with the gathered
outcomes in split order. -/
def careerItemsOf (req : Requirements) (outs : List UnitOutcome) :
    List (String × UnitOutcome) :=
  ((splitCareer req).map
    (fun u => pyStrOpt (lookupParam u.metadata "metric"))).zip outs

/-- The full ladder of backoff sleeps the retry loop would perform if it
retried at every remaining opportunity, starting at attempt `a` with
`rem` iterations left. -/
def backoffSleeps (a rem : Nat) : List ℚ :=
  (List.range (rem - 1)).map (fun i => retryDelay * (((a + i : Nat) : ℚ) + 1))

/-- A parameter pair that avoids the strip-to-empty edge of the
normalizer: it is not a non-empty whitespace-only string under a
non-driver key. -/
def stripSafe (kv : String × PValue) : Prop :=
  ∀ s, kv.2 = .vStr s → renameKey kv.1 ≠ "driver" → s ≠ "" → pyStrip s ≠ ""

/-- A parameter pair the normalizer leaves untouched: its key is not the
legacy alias, its value is not dropped, and normalizing its value again
changes nothing. -/
def stablePair (kv : String × PValue) : Prop :=
  kv.1 ≠ "season" ∧ kv.2 ≠ .vNone ∧ kv.2 ≠ .vStr "" ∧
  normValue kv.1 kv.2 = kv.2

/-- Fixture for concrete runs: a successful unit result with one row. -/
def wRowOk : UnitResult :=
  ⟨true, some [[("p", .vInt 1)]], none, none, none, "T"⟩

/-- Fixture for concrete runs: a successful unit result with an empty
dataset. -/
def wRowEmpty : UnitResult := ⟨true, some [], none, none, none, "T"⟩

/-- Fixture for concrete runs: a requirements record with a one-element
driver list. -/
def wReqDrivers : Requirements := ⟨"ep", [("driver", .vList [.vStr "a"])]⟩

/-! ## Basic lemmas about the string model -/

theorem stripChars_idem (l : List Char) :
    stripChars (stripChars l) = stripChars l := by
  unfold stripChars
  have hx : (l.dropWhile isPySpace).dropWhile isPySpace =
      l.dropWhile isPySpace := List.dropWhile_idempotent _ _
  set x := l.dropWhile isPySpace with hxdef
  set y := x.rdropWhile isPySpace with hydef
  have hpre : y <+: x := List.rdropWhile_prefix _ _
  have hydw : y.dropWhile isPySpace = y := by
    rw [List.dropWhile_eq_self_iff]
    intro hl
    have hxl : 0 < x.length := lt_of_lt_of_le hl hpre.length_le
    have hhead := List.dropWhile_eq_self_iff.mp hx hxl
    have hget : y.get ⟨0, hl⟩ = x.get ⟨0, hxl⟩ := by
      simpa [List.get_eq_getElem] using hpre.getElem hl
    rw [hget]
    exact hhead
  rw [hydw]
  exact List.rdropWhile_idempotent _ _

theorem pyStrip_idem (s : String) : pyStrip (pyStrip s) = pyStrip s := by
  unfold pyStrip
  exact congrArg String.mk (stripChars_idem s.data)

theorem toNat_ofNat_valid (n : Nat) (h : n.isValidChar) :
    (Char.ofNat n).toNat = n := by
  simp [Char.ofNat, h, Char.ofNatAux, Char.toNat, UInt32.toNat]

theorem lowerChar_idem (c : Char) : lowerChar (lowerChar c) = lowerChar c := by
  unfold lowerChar
  split
  · rename_i h
    have hv : (c.toNat + 32).isValidChar := Or.inl (by omega)
    have ht : (Char.ofNat (c.toNat + 32)).toNat = c.toNat + 32 :=
      toNat_ofNat_valid _ hv
    rw [if_neg (by rw [ht]; omega)]
  · rfl

theorem charMangle_idem (c : Char) :
    replChar (lowerChar (replChar (lowerChar c))) = replChar (lowerChar c) := by
  by_cases h : lowerChar c = ' '
  · rw [h]
    decide
  · have hr : replChar (lowerChar c) = lowerChar c := by
      unfold replChar
      rw [if_neg h]
    rw [hr, lowerChar_idem, hr]

theorem driverMangle_idem (s : String) :
    pyReplaceSpace (pyLower (pyReplaceSpace (pyLower s))) =
      pyReplaceSpace (pyLower s) := by
  unfold pyReplaceSpace pyLower
  refine congrArg String.mk ?_
  simp only [List.map_map]
  exact List.map_congr_left (fun c _ => charMangle_idem c)

theorem pyLower_length (s : String) : (pyLower s).data.length = s.data.length := by
  simp [pyLower]

theorem pyReplaceSpace_length (s : String) :
    (pyReplaceSpace s).data.length = s.data.length := by
  simp [pyReplaceSpace]

theorem string_eq_empty_iff (s : String) : s = "" ↔ s.data = [] := by
  constructor
  · intro h
    rw [h]
  · intro h
    cases s
    simp_all

/-! ## Claim theorems -/

/-- C2 (failing-input evaluation): the claim predicts that
`year = [0]` — a non-empty list of integer-parseable values — yields
exactly `max-min+1 = 1` unit tagged `{year: 0}`.  The code instead hits
the `if not start_year` truthiness slip (line 49): `start_year = 0` is
falsy, so it is replaced by `end_year - 5 = -5`, and six units for the
years `-5..0` are produced (independently of the current year). -/
theorem C2_splitHistorical_year_zero :
    splitHistorical 2024 ⟨"ep", [("year", .vList [.vInt 0])]⟩ =
      some [⟨"ep", [("year", .vStr "-5")], [("year", .vInt (-5))]⟩,
            ⟨"ep", [("year", .vStr "-4")], [("year", .vInt (-4))]⟩,
            ⟨"ep", [("year", .vStr "-3")], [("year", .vInt (-3))]⟩,
            ⟨"ep", [("year", .vStr "-2")], [("year", .vInt (-2))]⟩,
            ⟨"ep", [("year", .vStr "-1")], [("year", .vInt (-1))]⟩,
            ⟨"ep", [("year", .vStr "0")], [("year", .vInt 0)]⟩] ∧
    (splitHistorical 2024 ⟨"ep", [("year", .vList [.vInt 0])]⟩).map
        (fun us => us.length) ≠ some 1 := by
  constructor
  · decide
  · decide

/-- C10: when the stringified `year` only contains a non-lowercase
variant of "since" (so its lowercasing contains `since` but the raw text
contains neither `since` nor `last decade`), and `year`/`season` are not
lists, the request is classified as historical, yet `split_historical`
takes neither special branch and falls through to the default range
`[currentYear - 5, currentYear]`. -/
theorem C10_case_sensitivity_mismatch (cy : Int) (req : Requirements)
    (v : PValue)
    (hy : lookupParam req.params "year" = some v)
    (hnl : ∀ l, v ≠ .vList l)
    (hns : ∀ l, lookupParam req.params "season" ≠ some (.vList l))
    (hlow : pyIn "since" (pyLower (pyStr v)) = true)
    (hraw : pyIn "since" (pyStr v) = false)
    (hdec : pyIn "last decade" (pyStr v) = false) :
    classify req = .historical ∧
    splitHistorical cy req = some ((intRange (cy - 5) cy).map (fun y =>
      { endpoint := req.endpoint
        params := histBaseParams req.params ++ [("year", .vStr (toString y))]
        metadata := [("year", .vInt y)] })) := by
  constructor
  · have hh : isHistoricalQuery req = true := by
      unfold isHistoricalQuery
      have hany : (["since", "from", "decade", "between"] : List String).any
          (fun t => pyIn t (pyLower (pyStrOpt (lookupParam req.params "year"))))
            = true := by
        apply List.any_eq_true.mpr
        refine ⟨"since", by simp, ?_⟩
        rw [hy]
        simpa [pyStrOpt] using hlow
      rw [hany]
      simp
    unfold classify
    rw [hh]
    rfl
  · have hbounds : histYearBounds cy req.params = some (none, cy) := by
      unfold histYearBounds
      rw [hy]
      split
      · rename_i years heq
        exact absurd (Option.some.inj heq) (hnl years)
      · split
        · rename_i years heq
          exact absurd heq (hns years)
        · simp only [pyStrOpt, hraw, hdec]
          simp
    unfold splitHistorical
    rw [hbounds]

/-- C10 witness: concrete run with `year = "Since 2015"` and current
year 2024. -/
theorem C10_case_sensitivity_witness :
    classify ⟨"ep", [("year", .vStr "Since 2015")]⟩ = .historical ∧
    splitHistorical 2024 ⟨"ep", [("year", .vStr "Since 2015")]⟩ =
      some ((intRange (2024 - 5) 2024).map (fun y =>
        { endpoint := (⟨"ep", [("year", .vStr "Since 2015")]⟩ :
            Requirements).endpoint
          params := histBaseParams (⟨"ep", [("year", .vStr "Since 2015")]⟩ :
            Requirements).params ++ [("year", .vStr (toString y))]
          metadata := [("year", .vInt y)] })) :=
  C10_case_sensitivity_mismatch 2024 ⟨"ep", [("year", .vStr "Since 2015")]⟩
    (.vStr "Since 2015") (by decide)
    (fun l h => PValue.noConfusion h)
    (fun l h => Option.noConfusion h)
    (by decide) (by decide) (by decide)

/-- The long-list check is true exactly on a list value of length greater
than one. -/
theorem isListLongerThanOne_iff (o : Option PValue) :
    isListLongerThanOne o = true ↔ ∃ l, o = some (.vList l) ∧ 1 < l.length := by
  rcases o with _ | v
  · simp [isListLongerThanOne]
  · rcases v with _ | s | n | l <;> simp [isListLongerThanOne]

/-- The list check is true exactly on a list value. -/
theorem isListValue_iff (o : Option PValue) :
    isListValue o = true ↔ ∃ l, o = some (.vList l) := by
  rcases o with _ | v
  · simp [isListValue]
  · rcases v with _ | s | n | l <;> simp [isListValue]

/-- Substring scanning with already-lowercase needles agrees with the
spec's case-insensitive containment. -/
theorem anyTerm_iff (terms : List String) (ys : String)
    (h : ∀ t ∈ terms, pyLower t = t) :
    (terms.any (fun t => pyIn t (pyLower ys)) = true) ↔
      ∃ t ∈ terms, containsCI t ys = true := by
  rw [List.any_eq_true]
  constructor
  · rintro ⟨t, ht, hp⟩
    refine ⟨t, ht, ?_⟩
    unfold containsCI
    rw [h t ht]
    exact hp
  · rintro ⟨t, ht, hp⟩
    refine ⟨t, ht, ?_⟩
    unfold containsCI at hp
    rw [h t ht] at hp
    exact hp

/-- The code's historical test agrees with the spec's wording. -/
theorem isHistoricalQuery_iff (req : Requirements) :
    isHistoricalQuery req = true ↔ SpecHistorical req := by
  unfold isHistoricalQuery SpecHistorical
  rw [Bool.or_eq_true, Bool.or_eq_true, isListLongerThanOne_iff,
    isListLongerThanOne_iff, anyTerm_iff _ _ (by decide)]
  constructor
  · rintro ((⟨l, hl, hlen⟩ | ⟨l, hl, hlen⟩) | h)
    · exact Or.inl ⟨l, Or.inl hl, hlen⟩
    · exact Or.inl ⟨l, Or.inr hl, hlen⟩
    · exact Or.inr h
  · rintro (⟨l, hl | hl, hlen⟩ | h)
    · exact Or.inl (Or.inl ⟨l, hl, hlen⟩)
    · exact Or.inl (Or.inr ⟨l, hl, hlen⟩)
    · exact Or.inr h

/-- The code's career test agrees with the spec's wording. -/
theorem isCareerQuery_iff (req : Requirements) :
    isCareerQuery req = true ↔ SpecCareer req := by
  unfold isCareerQuery SpecCareer
  exact anyTerm_iff _ _ (by decide)

/-- The code's multi-entity test agrees with the spec's wording. -/
theorem isMultiEntityQuery_iff (req : Requirements) :
    isMultiEntityQuery req = true ↔ SpecMultiEntity req := by
  unfold isMultiEntityQuery SpecMultiEntity
  rw [Bool.or_eq_true, isListValue_iff, isListValue_iff, ← exists_or]

/-- C3: classification is a pure function of the request's params,
evaluated in the fixed priority order historical, career, multi-entity,
single, first match winning, with each condition as the spec words it. -/
theorem C3_classifier_priority (req : Requirements) :
    (classify req = .historical ↔ SpecHistorical req) ∧
    (classify req = .career ↔ ¬ SpecHistorical req ∧ SpecCareer req) ∧
    (classify req = .multiEntity ↔
      ¬ SpecHistorical req ∧ ¬ SpecCareer req ∧ SpecMultiEntity req) ∧
    (classify req = .single ↔
      ¬ SpecHistorical req ∧ ¬ SpecCareer req ∧ ¬ SpecMultiEntity req) := by
  have h1 := isHistoricalQuery_iff req
  have h2 := isCareerQuery_iff req
  have h3 := isMultiEntityQuery_iff req
  unfold classify
  cases hb1 : isHistoricalQuery req <;> cases hb2 : isCareerQuery req <;>
    cases hb3 : isMultiEntityQuery req <;> simp_all

/-- C3 witness: a request with no special params is classified single. -/
theorem C3_classifier_witness :
    classify ⟨"ep", [("driver", .vStr "x")]⟩ = .single ↔
      ¬ SpecHistorical ⟨"ep", [("driver", .vStr "x")]⟩ ∧
      ¬ SpecCareer ⟨"ep", [("driver", .vStr "x")]⟩ ∧
      ¬ SpecMultiEntity ⟨"ep", [("driver", .vStr "x")]⟩ :=
  (C3_classifier_priority ⟨"ep", [("driver", .vStr "x")]⟩).2.2.2

/-- C7: the career splitter always produces exactly these 4 units — the
original params passed through unchanged, tags `career_stats`,
`race_results`, `qualifying_results`, `championship_standings` — and
when all 4 units report success with data present, the keyed merge maps
exactly those 4 metric keys to the respective unit's dataset. -/
theorem C7_career_split_and_merge (req : Requirements)
    (u1 u2 u3 u4 : UnitResult) (df1 df2 df3 df4 : DataFrame)
    (h1 : u1.success = true) (hd1 : u1.data = some df1)
    (h2 : u2.success = true) (hd2 : u2.data = some df2)
    (h3 : u3.success = true) (hd3 : u3.data = some df3)
    (h4 : u4.success = true) (hd4 : u4.data = some df4) :
    splitCareer req =
      [⟨"DRIVERS.specific", req.params, [("metric", .vStr "career_stats")]⟩,
       ⟨"RESULTS.race", req.params, [("metric", .vStr "race_results")]⟩,
       ⟨"QUALIFYING.race", req.params,
         [("metric", .vStr "qualifying_results")]⟩,
       ⟨"STANDINGS.driver_season", req.params,
         [("metric", .vStr "championship_standings")]⟩] ∧
    (careerMergeLoop
        (careerItemsOf req [.res u1, .res u2, .res u3, .res u4])).merged =
      [("career_stats", df1), ("race_results", df2),
       ("qualifying_results", df3), ("championship_standings", df4)] := by
  constructor
  · rfl
  · simp [careerItemsOf, splitCareer, careerMetrics, careerMergeLoop,
      careerMergeStep, dictInsert, lookupParam, pyStrOpt, pyStr,
      h1, h2, h3, h4, hd1, hd2, hd3, hd4]

/-- C7 witness: four successful units with distinct one-row datasets. -/
theorem C7_career_witness :
    splitCareer ⟨"ep", [("driver", .vStr "x")]⟩ =
      [⟨"DRIVERS.specific", [("driver", .vStr "x")],
         [("metric", .vStr "career_stats")]⟩,
       ⟨"RESULTS.race", [("driver", .vStr "x")],
         [("metric", .vStr "race_results")]⟩,
       ⟨"QUALIFYING.race", [("driver", .vStr "x")],
         [("metric", .vStr "qualifying_results")]⟩,
       ⟨"STANDINGS.driver_season", [("driver", .vStr "x")],
         [("metric", .vStr "championship_standings")]⟩] ∧
    (careerMergeLoop (careerItemsOf ⟨"ep", [("driver", .vStr "x")]⟩
        [.res ⟨true, some [[("a", .vInt 1)]], none, none, none, "T"⟩,
         .res ⟨true, some [[("a", .vInt 2)]], none, none, none, "T"⟩,
         .res ⟨true, some [[("a", .vInt 3)]], none, none, none, "T"⟩,
         .res ⟨true, some [[("a", .vInt 4)]], none, none, none, "T"⟩])).merged =
      [("career_stats", [[("a", .vInt 1)]]),
       ("race_results", [[("a", .vInt 2)]]),
       ("qualifying_results", [[("a", .vInt 3)]]),
       ("championship_standings", [[("a", .vInt 4)]])] :=
  C7_career_split_and_merge ⟨"ep", [("driver", .vStr "x")]⟩
    ⟨true, some [[("a", .vInt 1)]], none, none, none, "T"⟩
    ⟨true, some [[("a", .vInt 2)]], none, none, none, "T"⟩
    ⟨true, some [[("a", .vInt 3)]], none, none, none, "T"⟩
    ⟨true, some [[("a", .vInt 4)]], none, none, none, "T"⟩
    [[("a", .vInt 1)]] [[("a", .vInt 2)]] [[("a", .vInt 3)]] [[("a", .vInt 4)]]
    rfl rfl rfl rfl rfl rfl rfl rfl

/-- C9: a multi-entity request whose entity list is empty (or whose
params hold no entity list at all) gets the immediate no-entities
failure — success false, no data, the no-entities error, the injected
timestamp — and zero dispatches are made. -/
theorem C9_no_entities (now : String) (disp : Requirements → UnitOutcome)
    (req : Requirements)
    (hd : ∀ l, lookupParam req.params "driver" = some (.vList l) → l = [])
    (hc : ∀ l, lookupParam req.params "constructor" = some (.vList l) →
      l = []) :
    processParallelResp now disp req =
      (⟨false, none, some "No parallel entities found", now⟩, 0) := by
  have hext : extractEntities req.params = none ∨
      ∃ ty base, extractEntities req.params = some (ty, [], base) := by
    unfold extractEntities
    split
    · rename_i l heq
      exact Or.inr ⟨_, _, by rw [hd l heq]⟩
    · split
      · rename_i l heq
        exact Or.inr ⟨_, _, by rw [hc l heq]⟩
      · exact Or.inl rfl
  unfold processParallelResp
  rcases hext with hext | ⟨ty, base, hext⟩ <;> rw [hext] <;> rfl

/-- C9 witness: an empty driver list yields the immediate failure. -/
theorem C9_no_entities_witness :
    processParallelResp "T" (fun _ => .exn "x")
        ⟨"ep", [("driver", .vList [])]⟩ =
      (⟨false, none, some "No parallel entities found", "T"⟩, 0) :=
  C9_no_entities "T" (fun _ => .exn "x") ⟨"ep", [("driver", .vList [])]⟩
    (fun _ h => (PValue.vList.inj (Option.some.inj h)).symm)
    (fun _ h => Option.noConfusion h)

/-- The boolean and propositional success tests on an outcome agree. -/
theorem outcomeOkB_iff (o : UnitOutcome) :
    outcomeOkB o = true ↔ outcomeOk o := by
  rcases o with m | r
  · simp [outcomeOkB, outcomeOk]
  · simp [outcomeOkB, outcomeOk]

/-- One merge step computes its success flag as the conjunction of the
accumulator's flag and the item's own success. -/
theorem rowMergeStep_success (col : String) (acc : MergeAcc)
    (it : String × PValue × UnitOutcome) :
    (rowMergeStep col acc it).success = (acc.success && outcomeOkB it.2.2) := by
  rcases it with ⟨ctx, v, o⟩
  rcases o with m | r
  · simp [rowMergeStep, outcomeOkB]
  · cases hr : r.success
    · simp [rowMergeStep, outcomeOkB, hr]
    · rcases hdata : r.data with _ | df
      · simp [rowMergeStep, outcomeOkB, hr, hdata]
      · by_cases he : df.isEmpty <;>
          simp [rowMergeStep, outcomeOkB, hr, hdata, he]

/-- The merge loop's success flag is the conjunction of the initial flag
and every item's success. -/
theorem rowMergeFold_success (col : String)
    (items : List (String × PValue × UnitOutcome)) : ∀ acc : MergeAcc,
    (items.foldl (rowMergeStep col) acc).success =
      (acc.success && items.all (fun it => outcomeOkB it.2.2)) := by
  induction items with
  | nil => intro acc; simp
  | cons it rest ih =>
      intro acc
      rw [List.foldl_cons, ih, rowMergeStep_success]
      simp [Bool.and_assoc]

/-- One merge step appends exactly the item's contributed rows. -/
theorem rowMergeStep_results (col : String) (acc : MergeAcc)
    (it : String × PValue × UnitOutcome) :
    (rowMergeStep col acc it).results =
      acc.results ++ (contributedDf col it).getD [] := by
  rcases it with ⟨ctx, v, o⟩
  rcases o with m | r
  · simp [rowMergeStep, contributedDf]
  · cases hr : r.success
    · simp [rowMergeStep, contributedDf, hr]
    · rcases hdata : r.data with _ | df
      · simp [rowMergeStep, contributedDf, hr, hdata]
      · by_cases he : df.isEmpty
        · simp [rowMergeStep, contributedDf, hr, hdata, he]
        · by_cases hacc : acc.results.isEmpty
          · simp [rowMergeStep, contributedDf, hr, hdata, he, hacc,
              List.isEmpty_iff.mp hacc]
          · simp [rowMergeStep, contributedDf, hr, hdata, he, hacc]

/-- The merge loop's dataset is the initial dataset followed by the
concatenation of every item's contributed rows, in item order. -/
theorem rowMergeFold_results (col : String)
    (items : List (String × PValue × UnitOutcome)) : ∀ acc : MergeAcc,
    (items.foldl (rowMergeStep col) acc).results =
      acc.results ++ (items.filterMap (contributedDf col)).flatten := by
  induction items with
  | nil => intro acc; simp
  | cons it rest ih =>
      intro acc
      rw [List.foldl_cons, ih, rowMergeStep_results]
      rcases hcd : contributedDf col it with _ | df
      · simp [List.filterMap_cons, hcd]
      · simp [List.filterMap_cons, hcd]

/-- Setting a column on a row makes that column hold the set value. -/
theorem rowLookup_setCell (r : Row) (col : String) (v : PValue) :
    rowLookup (setCell r col v) col = some v := by
  unfold rowLookup setCell dictInsert
  by_cases h : r.any (fun kv => kv.1 = col)
  · rw [if_pos h]
    induction r with
    | nil => simp at h
    | cons kv rest ih =>
        by_cases hk : kv.1 = col
        · simp [List.find?_cons, hk]
        · rw [List.map_cons, List.find?_cons]
          have hd : (decide ((if kv.1 = col then (col, v) else kv).1 = col))
              = false := by simp [hk]
          rw [hd]
          apply ih
          simpa [List.any_cons, hk] using h
  · rw [if_neg h]
    rw [List.find?_append]
    have hnone : r.find? (fun kv => decide (kv.1 = col)) = none := by
      rw [List.find?_eq_none]
      intro x hx
      simp only [List.any_eq_true] at h
      simp only [decide_eq_true_eq]
      intro hxc
      exact h ⟨x, hx, by simp [hxc]⟩
    rw [hnone]
    simp

/-- A non-`none` contribution comes from a successful unit with a
non-empty dataset and is that dataset with the grouping column set. -/
theorem contributedDf_shape (col : String)
    (it : String × PValue × UnitOutcome) (df' : DataFrame)
    (h : contributedDf col it = some df') :
    ∃ r df0, it.2.2 = .res r ∧ r.success = true ∧ r.data = some df0 ∧
      df0.isEmpty = false ∧ df' = setColumn df0 col it.2.1 := by
  unfold contributedDf at h
  split at h
  · exact absurd h (by simp)
  · rename_i r ho
    split at h
    · rename_i hs
      split at h
      · rename_i df0 hdata
        split at h
        · exact absurd h (by simp)
        · rename_i he
          exact ⟨r, df0, ho, hs, hdata, by simpa using he,
            (Option.some.inj h).symm⟩
      · exact absurd h (by simp)
    · exact absurd h (by simp)

/-- Summing contributed row counts over the filtered contributions equals
summing the per-item optional contribution sizes. -/
theorem sum_contributed_length {α : Type} (f : α → Option DataFrame)
    (items : List α) :
    ((items.filterMap f).map List.length).sum =
      (items.map (fun it => ((f it).map List.length).getD 0)).sum := by
  induction items with
  | nil => rfl
  | cons it rest ih =>
      rcases hc : f it with _ | df <;>
        simp [List.filterMap_cons, hc, ih]

/-- C5: in the row-concatenation merge, the output dataset is exactly the
in-order concatenation of the successful non-empty units' datasets with
the grouping column set on every row (accumulator first); hence its row
count is the sum of those units' row counts, and every output row carries
its originating tag value in the added column.  Failed units contribute
no rows. -/
theorem C5_row_concat_merge (col : String)
    (items : List (String × PValue × UnitOutcome)) :
    (rowMergeLoop col items).results =
      (items.filterMap (contributedDf col)).flatten ∧
    (rowMergeLoop col items).results.length =
      (items.map (fun it =>
        ((contributedDf col it).map List.length).getD 0)).sum ∧
    ∀ row ∈ (rowMergeLoop col items).results,
      ∃ it ∈ items, ∃ df, contributedDf col it = some df ∧ row ∈ df ∧
        rowLookup row col = some it.2.1 := by
  have hres : (rowMergeLoop col items).results =
      (items.filterMap (contributedDf col)).flatten := by
    unfold rowMergeLoop
    rw [rowMergeFold_results]
    rfl
  refine ⟨hres, ?_, ?_⟩
  · rw [hres, List.length_flatten, sum_contributed_length]
  · intro row hrow
    rw [hres] at hrow
    rw [List.mem_flatten] at hrow
    obtain ⟨df', hdf', hrowdf⟩ := hrow
    rw [List.mem_filterMap] at hdf'
    obtain ⟨it, hit, hcd⟩ := hdf'
    obtain ⟨r, df0, ho, hs, hdata, he, hdf0⟩ := contributedDf_shape col it df' hcd
    refine ⟨it, hit, df', hcd, hrowdf, ?_⟩
    rw [hdf0] at hrowdf
    obtain ⟨r0, hr0, hrr⟩ := List.mem_map.mp hrowdf
    rw [← hrr]
    exact rowLookup_setCell r0 col it.2.1

/-- C5 witness: one successful one-row unit and one failed unit; the
single output row carries `year = 2019`. -/
theorem C5_row_concat_witness :
    ∃ it ∈ [("year 2019", PValue.vInt 2019,
              UnitOutcome.res ⟨true, some [[("p", .vInt 7)]], none, none,
                none, "T"⟩),
            ("year 2020", PValue.vInt 2020,
              UnitOutcome.res ⟨false, none, some "bad", none, none, "T"⟩)],
      ∃ df, contributedDf "year" it = some df ∧
        [("p", PValue.vInt 7), ("year", PValue.vInt 2019)] ∈ df ∧
        rowLookup [("p", PValue.vInt 7), ("year", PValue.vInt 2019)] "year" =
          some it.2.1 :=
  (C5_row_concat_merge "year"
    [("year 2019", PValue.vInt 2019,
       UnitOutcome.res ⟨true, some [[("p", .vInt 7)]], none, none, none, "T"⟩),
     ("year 2020", PValue.vInt 2020,
       UnitOutcome.res ⟨false, none, some "bad", none, none, "T"⟩)]).2.2
    [("p", PValue.vInt 7), ("year", PValue.vInt 2019)] (by decide)

/-- One keyed merge step computes its success flag as the conjunction of
the accumulator's flag and the item's own success. -/
theorem careerMergeStep_success (acc : KeyedAcc) (it : String × UnitOutcome) :
    (careerMergeStep acc it).success = (acc.success && outcomeOkB it.2) := by
  rcases it with ⟨k, o⟩
  rcases o with m | r
  · simp [careerMergeStep, outcomeOkB]
  · cases hr : r.success
    · simp [careerMergeStep, outcomeOkB, hr]
    · rcases hdata : r.data with _ | df <;>
        simp [careerMergeStep, outcomeOkB, hr, hdata]

/-- The keyed merge loop's success flag is the conjunction of the initial
flag and every item's success. -/
theorem careerMergeFold_success (items : List (String × UnitOutcome)) :
    ∀ acc : KeyedAcc, (items.foldl careerMergeStep acc).success =
      (acc.success && items.all (fun it => outcomeOkB it.2)) := by
  induction items with
  | nil => intro acc; simp
  | cons it rest ih =>
      intro acc
      rw [List.foldl_cons, ih, careerMergeStep_success]
      simp [Bool.and_assoc]

/-- Membership after a dict insertion: either an old pair survives, or
the pair is exactly the inserted binding. -/
theorem dictInsert_mem {α : Type} (d : List (String × α)) (k : String)
    (v : α) (kv : String × α) (h : kv ∈ dictInsert d k v) :
    kv ∈ d ∨ kv = (k, v) := by
  unfold dictInsert at h
  by_cases hany : d.any (fun p => p.1 = k)
  · rw [if_pos hany] at h
    obtain ⟨p, hp, hpe⟩ := List.mem_map.mp h
    by_cases hpk : p.1 = k
    · right
      rw [← hpe]
      simp [hpk]
    · left
      rw [← hpe]
      simp only [if_neg hpk]
      exact hp
  · rw [if_neg hany] at h
    rcases List.mem_append.mp h with h1 | h2
    · exact Or.inl h1
    · exact Or.inr (List.mem_singleton.mp h2)

/-- An outcome that succeeds with no rows contributes nothing to a
row-concatenation merge. -/
theorem contributedDf_of_emptyOk (col : String)
    (it : String × PValue × UnitOutcome) (h : outcomeEmptyOk it.2.2) :
    contributedDf col it = none := by
  obtain ⟨r, ho, hs, hd⟩ := h
  unfold contributedDf
  rw [ho]
  rcases hd with hd | hd <;> simp [hs, hd]

/-- If every item succeeds with an absent or empty dataset, every dataset
in the keyed merge result is empty. -/
theorem careerMergeFold_empty :
    ∀ (items : List (String × UnitOutcome)) (acc : KeyedAcc),
      (∀ it ∈ items, outcomeEmptyOk it.2) →
      (∀ kv ∈ acc.merged, kv.2 = ([] : DataFrame)) →
      ∀ kv ∈ (items.foldl careerMergeStep acc).merged, kv.2 = [] := by
  intro items
  induction items with
  | nil =>
      intro acc _ hacc
      simpa using hacc
  | cons it rest ih =>
      intro acc hitems hacc
      rw [List.foldl_cons]
      apply ih
      · intro x hx
        exact hitems x (List.mem_cons_of_mem _ hx)
      · obtain ⟨r, ho, hs, hd⟩ := hitems it (List.mem_cons_self _ _)
        rcases it with ⟨kk, o⟩
        simp only at ho
        subst ho
        rcases hd with hd | hd
        · simpa [careerMergeStep, hs, hd] using hacc
        · intro kv hkv
          simp only [careerMergeStep, hs, hd] at hkv
          rcases dictInsert_mem _ _ _ _ hkv with hm | hv
          · exact hacc kv hm
          · rw [hv]

/-- C1: a merged response reports success only if no contributing unit
failed and the merged result is non-empty (historical and multi-entity:
a non-empty concatenated table; career: at least one non-empty metric
dataset); in particular, when every unit succeeds but returns no rows,
success is false. -/
theorem C1_success_invariant (now : String) (hu : List (Int × UnitOutcome))
    (cu : List (String × UnitOutcome)) (disp : Requirements → UnitOutcome)
    (req : Requirements) :
    ((processHistoricalResp now hu).success = true →
      (∀ it ∈ hu, outcomeOk it.2) ∧
      ∃ df, (processHistoricalResp now hu).data = some (.table df) ∧
        df ≠ []) ∧
    ((processCareerResp now cu).success = true →
      (∀ it ∈ cu, outcomeOk it.2) ∧
      ∃ k df, (k, df) ∈ (careerMergeLoop cu).merged ∧ df ≠ []) ∧
    ((processParallelResp now disp req).1.success = true →
      ∃ ety ents base, extractEntities req.params = some (ety, ents, base) ∧
        (∀ e ∈ ents, outcomeOk (disp ⟨req.endpoint, dictInsert base ety e⟩)) ∧
        ∃ df, (processParallelResp now disp req).1.data =
          some (.table df) ∧ df ≠ []) ∧
    ((∀ it ∈ hu, outcomeEmptyOk it.2) →
      (processHistoricalResp now hu).success = false) ∧
    ((∀ it ∈ cu, outcomeEmptyOk it.2) →
      (processCareerResp now cu).success = false) ∧
    ((∀ r2, outcomeEmptyOk (disp r2)) →
      (processParallelResp now disp req).1.success = false) := by
  refine ⟨?_, ?_, ?_, ?_, ?_, ?_⟩
  · intro hsucc
    have hs2 : (rowMergeLoop "year" (histMergeItems hu)).success = true ∧
        (rowMergeLoop "year" (histMergeItems hu)).results.isEmpty = false := by
      simpa [processHistoricalResp, Bool.and_eq_true] using hsucc
    obtain ⟨hok, hne⟩ := hs2
    constructor
    · intro it hit
      have hall : (histMergeItems hu).all (fun x => outcomeOkB x.2.2)
          = true := by
        have heq := rowMergeFold_success "year" (histMergeItems hu)
          ⟨true, [], []⟩
        unfold rowMergeLoop at hok
        rw [heq] at hok
        simpa using hok
      rw [← outcomeOkB_iff]
      exact List.all_eq_true.mp hall _
        (List.mem_map_of_mem
          (fun it => ("year " ++ toString it.1, PValue.vInt it.1, it.2)) hit)
    · refine ⟨(rowMergeLoop "year" (histMergeItems hu)).results, ?_, ?_⟩
      · simp [processHistoricalResp, hne]
      · exact (List.isEmpty_eq_false.mp hne)
  · intro hsucc
    have hs2 : (careerMergeLoop cu).success = true ∧
        (careerMergeLoop cu).merged.any (fun kv => !kv.2.isEmpty) = true := by
      simpa [processCareerResp, Bool.and_eq_true] using hsucc
    obtain ⟨hok, hany⟩ := hs2
    constructor
    · intro it hit
      have hall : cu.all (fun x => outcomeOkB x.2) = true := by
        have heq := careerMergeFold_success cu ⟨true, [], []⟩
        unfold careerMergeLoop at hok
        rw [heq] at hok
        simpa using hok
      rw [← outcomeOkB_iff]
      exact List.all_eq_true.mp hall _ hit
    · obtain ⟨kv, hkv, hkvne⟩ := List.any_eq_true.mp hany
      exact ⟨kv.1, kv.2, hkv, by simpa using hkvne⟩
  · intro hsucc
    rcases hext : extractEntities req.params with _ | ⟨ety, ents, base⟩
    · have hred : processParallelResp now disp req = (noEntitiesResp now, 0) := by
        unfold processParallelResp
        rw [hext]
      rw [hred] at hsucc
      exact absurd hsucc (by simp [noEntitiesResp])
    · have hred : processParallelResp now disp req =
          if ents.isEmpty then (noEntitiesResp now, 0)
          else (parallelMergeResp now disp req.endpoint ety base ents,
            ents.length) := by
        unfold processParallelResp
        rw [hext]
      by_cases hempt : ents.isEmpty
      · rw [hred, if_pos hempt] at hsucc
        exact absurd hsucc (by simp [noEntitiesResp])
      · rw [hred, if_neg hempt] at hsucc ⊢
        have hs2 : (rowMergeLoop ety
            (parallelItems disp req.endpoint ety base ents)).success = true ∧
            (rowMergeLoop ety
              (parallelItems disp req.endpoint ety base ents)).results.isEmpty
              = false := by
          simpa [parallelMergeResp, Bool.and_eq_true] using hsucc
        obtain ⟨hok, hne⟩ := hs2
        refine ⟨ety, ents, base, rfl, ?_, ?_⟩
        · intro e he
          have hall : (parallelItems disp req.endpoint ety base ents).all
              (fun x => outcomeOkB x.2.2) = true := by
            have heq := rowMergeFold_success ety
              (parallelItems disp req.endpoint ety base ents) ⟨true, [], []⟩
            unfold rowMergeLoop at hok
            rw [heq] at hok
            simpa using hok
          rw [← outcomeOkB_iff]
          exact List.all_eq_true.mp hall _
            (List.mem_map_of_mem
              (fun e => (pyStr e, e,
                disp ⟨req.endpoint, dictInsert base ety e⟩)) he)
        · refine ⟨(rowMergeLoop ety
              (parallelItems disp req.endpoint ety base ents)).results,
              ?_, ?_⟩
          · simp [parallelMergeResp, hne]
          · exact (List.isEmpty_eq_false.mp hne)
  · intro hemp
    have hres0 : (rowMergeLoop "year" (histMergeItems hu)).results = [] := by
      unfold rowMergeLoop
      rw [rowMergeFold_results]
      have hnil : (histMergeItems hu).filterMap (contributedDf "year")
          = [] := by
        rw [List.filterMap_eq_nil_iff]
        intro it hit
        obtain ⟨it0, hit0, hfe⟩ := List.mem_map.mp hit
        rw [← hfe]
        exact contributedDf_of_emptyOk _ _ (hemp it0 hit0)
      rw [hnil]
      rfl
    simp [processHistoricalResp, hres0]
  · intro hemp
    have hvals : ∀ kv ∈ (careerMergeLoop cu).merged, kv.2 = [] :=
      careerMergeFold_empty cu ⟨true, [], []⟩ hemp (by simp)
    have hany : (careerMergeLoop cu).merged.any (fun kv => !kv.2.isEmpty)
        = false := by
      rw [List.any_eq_false]
      intro kv hkv
      simp [hvals kv hkv]
    simp [processCareerResp, hany]
  · intro hemp
    rcases hext : extractEntities req.params with _ | ⟨ety, ents, base⟩
    · have hred : processParallelResp now disp req = (noEntitiesResp now, 0) := by
        unfold processParallelResp
        rw [hext]
      rw [hred]
      rfl
    · have hred : processParallelResp now disp req =
          if ents.isEmpty then (noEntitiesResp now, 0)
          else (parallelMergeResp now disp req.endpoint ety base ents,
            ents.length) := by
        unfold processParallelResp
        rw [hext]
      rw [hred]
      by_cases hempt : ents.isEmpty
      · rw [if_pos hempt]
        rfl
      · rw [if_neg hempt]
        have hres0 : (rowMergeLoop ety
            (parallelItems disp req.endpoint ety base ents)).results = [] := by
          unfold rowMergeLoop
          rw [rowMergeFold_results]
          have hnil : (parallelItems disp req.endpoint ety base ents).filterMap
              (contributedDf ety) = [] := by
            rw [List.filterMap_eq_nil_iff]
            intro it hit
            obtain ⟨e, he, hfe⟩ := List.mem_map.mp hit
            rw [← hfe]
            exact contributedDf_of_emptyOk _ _ (hemp _)
          rw [hnil]
          rfl
        simp [parallelMergeResp, hres0]

/-- C1 witness: each conjunct applied at a concrete unit family (a
one-row success for the positive directions; all-empty successes for the
negative ones). -/
theorem C1_success_invariant_witness :
    ((∀ it ∈ [((2019 : Int), UnitOutcome.res wRowOk)], outcomeOk it.2) ∧
      ∃ df, (processHistoricalResp "T"
        [((2019 : Int), UnitOutcome.res wRowOk)]).data =
          some (.table df) ∧ df ≠ []) ∧
    ((∀ it ∈ [("career_stats", UnitOutcome.res wRowOk)], outcomeOk it.2) ∧
      ∃ k df, (k, df) ∈ (careerMergeLoop
        [("career_stats", UnitOutcome.res wRowOk)]).merged ∧ df ≠ []) ∧
    (∃ ety ents base,
      extractEntities wReqDrivers.params = some (ety, ents, base) ∧
      (∀ e ∈ ents, outcomeOk ((fun _ => UnitOutcome.res wRowOk)
        (⟨wReqDrivers.endpoint, dictInsert base ety e⟩ : Requirements))) ∧
      ∃ df, (processParallelResp "T" (fun _ => UnitOutcome.res wRowOk)
        wReqDrivers).1.data = some (.table df) ∧ df ≠ []) ∧
    ((processHistoricalResp "T"
      [((2019 : Int), UnitOutcome.res wRowEmpty)]).success = false) ∧
    ((processCareerResp "T"
      [("career_stats", UnitOutcome.res wRowEmpty)]).success = false) ∧
    ((processParallelResp "T" (fun _ => UnitOutcome.res wRowEmpty)
      wReqDrivers).1.success = false) := by
  refine ⟨?_, ?_, ?_, ?_, ?_, ?_⟩
  · exact (C1_success_invariant "T" [(2019, .res wRowOk)]
      [("career_stats", .res wRowOk)] (fun _ => .res wRowOk) wReqDrivers).1
      (by decide)
  · exact (C1_success_invariant "T" [(2019, .res wRowOk)]
      [("career_stats", .res wRowOk)] (fun _ => .res wRowOk) wReqDrivers).2.1
      (by decide)
  · exact (C1_success_invariant "T" [(2019, .res wRowOk)]
      [("career_stats", .res wRowOk)] (fun _ => .res wRowOk) wReqDrivers).2.2.1
      (by decide)
  · exact (C1_success_invariant "T" [(2019, .res wRowEmpty)]
      [("career_stats", .res wRowEmpty)] (fun _ => .res wRowEmpty)
      wReqDrivers).2.2.2.1
      (by
        intro it hit
        rw [List.mem_singleton.mp hit]
        exact ⟨wRowEmpty, rfl, rfl, Or.inr rfl⟩)
  · exact (C1_success_invariant "T" [(2019, .res wRowEmpty)]
      [("career_stats", .res wRowEmpty)] (fun _ => .res wRowEmpty)
      wReqDrivers).2.2.2.2.1
      (by
        intro it hit
        rw [List.mem_singleton.mp hit]
        exact ⟨wRowEmpty, rfl, rfl, Or.inr rfl⟩)
  · exact (C1_success_invariant "T" [(2019, .res wRowEmpty)]
      [("career_stats", .res wRowEmpty)] (fun _ => .res wRowEmpty)
      wReqDrivers).2.2.2.2.2
      (fun _ => ⟨wRowEmpty, rfl, rfl, Or.inr rfl⟩)

/-- Peeling one sleep off the backoff ladder. -/
theorem backoffSleeps_succ (a rem : Nat) (h : 0 < rem) :
    backoffSleeps a (rem + 1) =
      retryDelay * ((a : ℚ) + 1) :: backoffSleeps (a + 1) rem := by
  unfold backoffSleeps
  obtain ⟨m, rfl⟩ : ∃ m, rem = m + 1 := ⟨rem - 1, by omega⟩
  have h1 : m + 1 + 1 - 1 = m + 1 := rfl
  rw [h1, List.range_succ_eq_map, List.map_cons, List.map_map]
  have h2 : m + 1 - 1 = m := rfl
  rw [h2]
  congr 1
  apply List.map_congr_left
  intro i hi
  simp only [Function.comp_apply]
  have h3 : a + Nat.succ i = a + 1 + i := by omega
  rw [h3]

/-- The retry loop fetches at most once per remaining iteration, and its
sleeps are an initial segment of the backoff ladder (1.0 s, then 2.0 s,
... times `retry_delay`). -/
theorem singleLoop_trace (be : Nat → String → Params → Option String)
    (fetch : Nat → FetchOutcome) (now ep : String) (ps : Params) :
    ∀ (rem a : Nat), a + rem = maxRetries →
      (singleLoop be fetch now ep ps a rem).2.fetches ≤ rem ∧
      (singleLoop be fetch now ep ps a rem).2.sleeps =
        (backoffSleeps a rem).take
          (singleLoop be fetch now ep ps a rem).2.sleeps.length := by
  intro rem
  induction rem with
  | zero =>
      intro a _
      simp [singleLoop, backoffSleeps]
  | succ rem ih =>
      intro a hsum
      have hretry : a < maxRetries - 1 → 0 < rem ∧
          (a + 1) + rem = maxRetries := by
        intro hlt
        unfold maxRetries at hsum hlt ⊢
        omega
      have hstep : ∀ hlt : a < maxRetries - 1,
          (singleLoop be fetch now ep ps (a + 1) rem).2.fetches + 1 ≤
            rem + 1 ∧
          retryDelay * ((a : ℚ) + 1) ::
              (singleLoop be fetch now ep ps (a + 1) rem).2.sleeps =
            (backoffSleeps a (rem + 1)).take
              ((retryDelay * ((a : ℚ) + 1) ::
                (singleLoop be fetch now ep ps (a + 1) rem).2.sleeps).length) := by
        intro hlt
        obtain ⟨hrem, hsum2⟩ := hretry hlt
        have hih := ih (a + 1) hsum2
        constructor
        · exact Nat.succ_le_succ hih.1
        · rw [backoffSleeps_succ a rem hrem]
          simp only [List.length_cons, List.take_succ_cons]
          rw [← hih.2]
      rcases hbe : be a ep ps with _ | fe
      · simp [singleLoop, hbe]
      · by_cases hfe : fe = ""
        · simp [singleLoop, hbe, hfe]
        · rcases hf : fetch a with msg | ty | ⟨ok, data, err⟩
          · by_cases hlt : a < maxRetries - 1
            · have heq : singleLoop be fetch now ep ps a (rem + 1) =
                  ((singleLoop be fetch now ep ps (a + 1) rem).1,
                   ⟨(singleLoop be fetch now ep ps (a + 1) rem).2.fetches + 1,
                    retryDelay * ((a : ℚ) + 1) ::
                      (singleLoop be fetch now ep ps (a + 1) rem).2.sleeps⟩) := by
                simp [singleLoop, hbe, hf, hfe, hlt]
              rw [heq]
              exact hstep hlt
            · simp [singleLoop, hbe, hf, hfe, hlt]
          · simp [singleLoop, hbe, hf, hfe]
          · match ok, data with
            | true, some df => simp [singleLoop, hbe, hf, hfe]
            | true, none =>
                by_cases hlt : a < maxRetries - 1
                · have heq : singleLoop be fetch now ep ps a (rem + 1) =
                      ((singleLoop be fetch now ep ps (a + 1) rem).1,
                       ⟨(singleLoop be fetch now ep ps (a + 1) rem).2.fetches
                          + 1,
                        retryDelay * ((a : ℚ) + 1) ::
                          (singleLoop be fetch now ep ps
                            (a + 1) rem).2.sleeps⟩) := by
                    simp [singleLoop, hbe, hf, hfe, hlt]
                  rw [heq]
                  exact hstep hlt
                · simp [singleLoop, hbe, hf, hfe, hlt]
            | false, data =>
                by_cases hlt : a < maxRetries - 1
                · have heq : singleLoop be fetch now ep ps a (rem + 1) =
                      ((singleLoop be fetch now ep ps (a + 1) rem).1,
                       ⟨(singleLoop be fetch now ep ps (a + 1) rem).2.fetches
                          + 1,
                        retryDelay * ((a : ℚ) + 1) ::
                          (singleLoop be fetch now ep ps
                            (a + 1) rem).2.sleeps⟩) := by
                    simp [singleLoop, hbe, hf, hfe, hlt]
                  rw [heq]
                  exact hstep hlt
                · simp [singleLoop, hbe, hf, hfe, hlt]

/-- When the fetch reports failure with no data on every attempt, the
loop runs all three attempts, sleeps 1.0 s then 2.0 s, and ends with the
no-data failure carrying attempt 3. -/
theorem singleLoop_all_nodata (be : Nat → String → Params → Option String)
    (fetch : Nat → FetchOutcome) (now ep : String) (ps : Params)
    (fe : String)
    (hbe : ∀ a, be a ep ps = some fe) (hfe : fe ≠ "")
    (hf : ∀ a, fetch a = .resp false none none) :
    singleLoop be fetch now ep ps 0 3 =
      (⟨false, none, some "No data retrieved", some 3, none, now⟩,
       ⟨3, [1, 2]⟩) := by
  have h0 := hbe 0
  have h1 := hbe 1
  have h2 := hbe 2
  have f0 := hf 0
  have f1 := hf 1
  have f2 := hf 2
  simp [singleLoop, h0, h1, h2, f0, f1, f2, hfe, maxRetries, retryDelay,
    noDataResult, pyOrStr]
  norm_num

/-- C4: the dispatcher makes at most 3 fetch attempts and its backoff
sleeps form an initial segment of the ladder `[1.0, 2.0]` seconds
(`retry_delay * (attempt+1)` between consecutive attempts); and when the
fetch returns `{success: false, data: null}` on every attempt against
valid inputs, it returns a no-data failure with `metadata.attempt = 3`
after sleeping 1.0 s and 2.0 s. -/
theorem C4_retry_policy (be : Nat → String → Params → Option String)
    (fetch : Nat → FetchOutcome) (now : String) (req : Option Requirements) :
    ((processSingle be fetch now req).2.fetches ≤ 3 ∧
      (processSingle be fetch now req).2.sleeps =
        ([1, 2] : List ℚ).take
          (processSingle be fetch now req).2.sleeps.length) ∧
    (∀ r fe, req = some r →
      r.endpoint ≠ "" → normalizeParams r.params ≠ [] →
      (∀ a, be a r.endpoint (normalizeParams r.params) = some fe) →
      fe ≠ "" →
      (∀ a, fetch a = .resp false none none) →
      processSingle be fetch now req =
        (⟨false, none, some "No data retrieved", some 3, none, now⟩,
         ⟨3, [1, 2]⟩)) := by
  constructor
  · have hladder : backoffSleeps 0 3 = ([1, 2] : List ℚ) := by
      norm_num [backoffSleeps, retryDelay, List.range_succ]
    rcases req with _ | r
    · simp [processSingle]
    · have hred : processSingle be fetch now (some r) =
          (if r.endpoint = "" ∨ (normalizeParams r.params).isEmpty
           then (missingParamsResult now, ⟨0, []⟩)
           else singleLoop be fetch now r.endpoint (normalizeParams r.params)
             0 maxRetries) := rfl
      rw [hred]
      by_cases hcond : r.endpoint = "" ∨ (normalizeParams r.params).isEmpty
      · rw [if_pos hcond]
        simp
      · rw [if_neg hcond]
        have htr := singleLoop_trace be fetch now r.endpoint
          (normalizeParams r.params) 3 0 rfl
        rw [← hladder]
        exact htr
  · intro r fe hreq hep hps hbe hfe hf
    subst hreq
    have hred : processSingle be fetch now (some r) =
        (if r.endpoint = "" ∨ (normalizeParams r.params).isEmpty
         then (missingParamsResult now, ⟨0, []⟩)
         else singleLoop be fetch now r.endpoint (normalizeParams r.params)
           0 maxRetries) := rfl
    rw [hred, if_neg (by simp [hep, hps, List.isEmpty_iff])]
    exact singleLoop_all_nodata be fetch now r.endpoint _ fe hbe hfe hf

/-- C4 witness: a concrete always-failing fetch run making 3 attempts
with sleeps of 1.0 s and 2.0 s. -/
theorem C4_retry_witness :
    processSingle (fun _ _ _ => some "url")
        (fun _ => .resp false none none) "T"
        (some ⟨"ep", [("a", .vStr "b")]⟩) =
      (⟨false, none, some "No data retrieved", some 3, none, "T"⟩,
       ⟨3, [1, 2]⟩) :=
  (C4_retry_policy (fun _ _ _ => some "url") (fun _ => .resp false none none)
    "T" (some ⟨"ep", [("a", .vStr "b")]⟩)).2
    ⟨"ep", [("a", .vStr "b")]⟩ "url" rfl
    (by decide) (by decide) (fun _ => rfl) (by decide) (fun _ => rfl)

/-- Every result the retry loop returns is well-formed: success carries
data and no error; failure carries an error message and no data. -/
theorem singleLoop_shape (be : Nat → String → Params → Option String)
    (fetch : Nat → FetchOutcome) (now ep : String) (ps : Params) :
    ∀ (rem a : Nat),
      ((singleLoop be fetch now ep ps a rem).1.success = true →
        (∃ df, (singleLoop be fetch now ep ps a rem).1.data = some df) ∧
        (singleLoop be fetch now ep ps a rem).1.error = none) ∧
      ((singleLoop be fetch now ep ps a rem).1.success = false →
        (singleLoop be fetch now ep ps a rem).1.data = none ∧
        ∃ m, (singleLoop be fetch now ep ps a rem).1.error = some m) := by
  intro rem
  induction rem with
  | zero =>
      intro a
      simp [singleLoop, maxRetriesResult]
  | succ rem ih =>
      intro a
      rcases hbe : be a ep ps with _ | fe
      · simp [singleLoop, hbe, buildFailResult]
      · by_cases hfe : fe = ""
        · simp [singleLoop, hbe, hfe, buildFailResult]
        · rcases hf : fetch a with msg | ty | ⟨ok, data, err⟩
          · by_cases hlt : a < maxRetries - 1
            · have heq : (singleLoop be fetch now ep ps a (rem + 1)).1 =
                  (singleLoop be fetch now ep ps (a + 1) rem).1 := by
                simp [singleLoop, hbe, hf, hfe, hlt]
              rw [heq]
              exact ih (a + 1)
            · simp [singleLoop, hbe, hf, hfe, hlt, processingErrorResult]
          · simp [singleLoop, hbe, hf, hfe, invalidTypeResult]
          · match ok, data with
            | true, some df =>
                simp [singleLoop, hbe, hf, hfe, fetchSuccessResult]
            | true, none =>
                by_cases hlt : a < maxRetries - 1
                · have heq : (singleLoop be fetch now ep ps a (rem + 1)).1 =
                      (singleLoop be fetch now ep ps (a + 1) rem).1 := by
                    simp [singleLoop, hbe, hf, hfe, hlt]
                  rw [heq]
                  exact ih (a + 1)
                · simp [singleLoop, hbe, hf, hfe, hlt, noDataResult]
            | false, data =>
                by_cases hlt : a < maxRetries - 1
                · have heq : (singleLoop be fetch now ep ps a (rem + 1)).1 =
                      (singleLoop be fetch now ep ps (a + 1) rem).1 := by
                    simp [singleLoop, hbe, hf, hfe, hlt]
                  rw [heq]
                  exact ih (a + 1)
                · simp [singleLoop, hbe, hf, hfe, hlt, noDataResult]

/-- C8: the single-unit dispatcher is a total function of its inputs and
of arbitrary collaborator behaviour (a raising fetch is the `raised`
outcome): it always returns a `UnitResult` value, every failure being
represented as success=false with an error message and no data, and
every success carrying data and no error. -/
theorem C8_dispatch_total (be : Nat → String → Params → Option String)
    (fetch : Nat → FetchOutcome) (now : String) (req : Option Requirements) :
    ((processSingle be fetch now req).1.success = false →
      (processSingle be fetch now req).1.data = none ∧
      ∃ m, (processSingle be fetch now req).1.error = some m) ∧
    ((processSingle be fetch now req).1.success = true →
      (∃ df, (processSingle be fetch now req).1.data = some df) ∧
      (processSingle be fetch now req).1.error = none) := by
  rcases req with _ | r
  · simp [processSingle, invalidReqResult]
  · have hred : processSingle be fetch now (some r) =
        (if r.endpoint = "" ∨ (normalizeParams r.params).isEmpty
         then (missingParamsResult now, ⟨0, []⟩)
         else singleLoop be fetch now r.endpoint (normalizeParams r.params)
           0 maxRetries) := rfl
    rw [hred]
    by_cases hcond : r.endpoint = "" ∨ (normalizeParams r.params).isEmpty
    · rw [if_pos hcond]
      simp [missingParamsResult]
    · rw [if_neg hcond]
      have hsh := singleLoop_shape be fetch now r.endpoint
        (normalizeParams r.params) maxRetries 0
      exact ⟨hsh.2, hsh.1⟩

/-- C8 witness: a raising fetch yields a processing-error failure value;
a succeeding fetch yields a success value with data. -/
theorem C8_dispatch_witness :
    ((processSingle (fun _ _ _ => some "url") (fun _ => .raised "boom") "T"
        (some ⟨"ep", [("a", .vStr "b")]⟩)).1.data = none ∧
      ∃ m, (processSingle (fun _ _ _ => some "url") (fun _ => .raised "boom")
        "T" (some ⟨"ep", [("a", .vStr "b")]⟩)).1.error = some m) ∧
    ((∃ df, (processSingle (fun _ _ _ => some "url")
        (fun _ => .resp true (some [[("p", .vInt 1)]]) none) "T"
        (some ⟨"ep", [("a", .vStr "b")]⟩)).1.data = some df) ∧
      (processSingle (fun _ _ _ => some "url")
        (fun _ => .resp true (some [[("p", .vInt 1)]]) none) "T"
        (some ⟨"ep", [("a", .vStr "b")]⟩)).1.error = none) :=
  ⟨(C8_dispatch_total (fun _ _ _ => some "url") (fun _ => .raised "boom")
      "T" (some ⟨"ep", [("a", .vStr "b")]⟩)).1 (by decide),
   (C8_dispatch_total (fun _ _ _ => some "url")
      (fun _ => .resp true (some [[("p", .vInt 1)]]) none)
      "T" (some ⟨"ep", [("a", .vStr "b")]⟩)).2 (by decide)⟩

/-- The driver-name mangling never maps a non-empty string to the empty
string (it is length-preserving). -/
theorem driverMangle_ne_empty (s : String) (h : s ≠ "") :
    pyReplaceSpace (pyLower s) ≠ "" := by
  intro hc
  apply h
  rw [string_eq_empty_iff] at hc ⊢
  have h1 : (pyReplaceSpace (pyLower s)).data.length = s.data.length := by
    rw [pyReplaceSpace_length, pyLower_length]
  rw [hc] at h1
  simpa using (List.length_eq_zero.mp h1.symm)

/-- Normalizing a list element twice changes nothing the second time. -/
theorem normElem_idem (k : String) (e : PValue) :
    normElem k (normElem k e) = normElem k e := by
  rcases e with _ | s | n | l2
  · rfl
  · unfold normElem
    by_cases hk : k = "driver"
    · simp [hk, driverMangle_idem]
    · simp [hk, pyStrip_idem]
  · rfl
  · rfl

/-- Normalizing a value twice changes nothing the second time. -/
theorem normValue_idem (k : String) (v : PValue) :
    normValue k (normValue k v) = normValue k v := by
  rcases v with _ | s | n | l
  · rfl
  · unfold normValue
    by_cases hk : k = "driver"
    · simp [hk, driverMangle_idem]
    · simp [hk, pyStrip_idem]
  · rfl
  · unfold normValue
    simp only [PValue.vList.injEq]
    rw [List.map_map]
    apply List.map_congr_left
    intro e he
    exact normElem_idem k e

/-- Value normalization never produces a null value from a non-null
value. -/
theorem normValue_ne_vNone (k : String) (v : PValue) (hv : v ≠ .vNone) :
    normValue k v ≠ .vNone := by
  rcases v with _ | s | n | l
  · exact absurd rfl hv
  · unfold normValue
    by_cases hk : k = "driver" <;> simp [hk]
  · simp [normValue]
  · simp [normValue]

/-- Value normalization produces the empty string only from whitespace
under a non-driver key, which `stripSafe` rules out. -/
theorem normValue_ne_empty (k : String) (v : PValue) (hv : v ≠ .vStr "")
    (hsafe : ∀ s, v = .vStr s → k ≠ "driver" → s ≠ "" → pyStrip s ≠ "") :
    normValue k v ≠ .vStr "" := by
  rcases v with _ | s | n | l
  · simp [normValue]
  · have hs : s ≠ "" := fun h0 => hv (by rw [h0])
    unfold normValue
    by_cases hk : k = "driver"
    · simp only [if_pos hk]
      intro hc
      exact driverMangle_ne_empty s hs (PValue.vStr.inj hc)
    · simp only [if_neg hk]
      intro hc
      exact hsafe s rfl hk hs (PValue.vStr.inj hc)
  · simp [normValue]
  · simp [normValue]

/-- Overwriting an existing key leaves the key sequence unchanged. -/
theorem dictInsert_keys_of_mem {α : Type} (d : List (String × α))
    (k : String) (v : α) (h : d.any (fun p => p.1 = k)) :
    (dictInsert d k v).map Prod.fst = d.map Prod.fst := by
  unfold dictInsert
  rw [if_pos h, List.map_map]
  apply List.map_congr_left
  intro p hp
  by_cases hpk : p.1 = k <;> simp [hpk]

/-- Dict insertion preserves distinctness of the key sequence. -/
theorem dictInsert_keys_nodup {α : Type} (d : List (String × α))
    (k : String) (v : α) (h : (d.map Prod.fst).Nodup) :
    ((dictInsert d k v).map Prod.fst).Nodup := by
  by_cases hany : d.any (fun p => p.1 = k)
  · rw [dictInsert_keys_of_mem d k v hany]
    exact h
  · unfold dictInsert
    rw [if_neg hany, List.map_append]
    apply List.Nodup.append h (List.nodup_singleton k)
    intro a ha hb
    rw [List.mem_map] at ha
    obtain ⟨p, hp, hpa⟩ := ha
    rw [List.mem_singleton] at hb
    apply hany
    rw [List.any_eq_true]
    exact ⟨p, hp, by simp [hpa, hb]⟩

/-- The normalizer's output keys are distinct (it builds a dict). -/
theorem normAux_keys_nodup : ∀ (ps : List (String × PValue)) (acc : Params),
    ((acc.map Prod.fst).Nodup) → (((normAux acc ps).map Prod.fst).Nodup) := by
  intro ps
  induction ps with
  | nil =>
      intro acc h
      exact h
  | cons kv rest ih =>
      intro acc h
      rcases kv with ⟨k, v⟩
      simp only [normAux]
      by_cases hv : (v = PValue.vNone || v = PValue.vStr "") = true
      · rw [if_pos hv]
        exact ih acc h
      · rw [if_neg hv]
        exact ih _ (dictInsert_keys_nodup _ _ _ h)

/-- Every output pair of the normalizer comes from the accumulator or is
the normalization of a surviving input pair. -/
theorem normAux_mem : ∀ (ps : List (String × PValue)) (acc : Params)
    (kv : String × PValue), kv ∈ normAux acc ps →
    kv ∈ acc ∨ ∃ k0 v0, (k0, v0) ∈ ps ∧ kv.1 = renameKey k0 ∧
      kv.2 = normValue (renameKey k0) v0 ∧ v0 ≠ .vNone ∧ v0 ≠ .vStr "" := by
  intro ps
  induction ps with
  | nil =>
      intro acc kv h
      exact Or.inl h
  | cons p rest ih =>
      intro acc kv h
      rcases p with ⟨k, v⟩
      simp only [normAux] at h
      by_cases hv : (v = PValue.vNone || v = PValue.vStr "") = true
      · rw [if_pos hv] at h
        rcases ih acc kv h with h1 | ⟨k0, v0, hm, hrest⟩
        · exact Or.inl h1
        · exact Or.inr ⟨k0, v0, List.mem_cons_of_mem _ hm, hrest⟩
      · rw [if_neg hv] at h
        have hvn : v ≠ .vNone ∧ v ≠ .vStr "" := by
          constructor <;> (intro h0; apply hv; simp [h0])
        rcases ih _ kv h with h1 | ⟨k0, v0, hm, hrest⟩
        · rcases dictInsert_mem _ _ _ _ h1 with h2 | h2
          · exact Or.inl h2
          · refine Or.inr ⟨k, v, List.mem_cons_self _ _, ?_, ?_, hvn.1, hvn.2⟩
            · rw [h2]
            · rw [h2]
        · exact Or.inr ⟨k0, v0, List.mem_cons_of_mem _ hm, hrest⟩

/-- Folding the normalizer over already-stable pairs with fresh distinct
keys just appends them. -/
theorem normAux_stable : ∀ (d : List (String × PValue)) (acc : Params),
    (∀ kv ∈ d, stablePair kv) →
    (d.map Prod.fst).Nodup →
    (∀ kk ∈ d.map Prod.fst, ¬ acc.any (fun p => p.1 = kk)) →
    normAux acc d = acc ++ d := by
  intro d
  induction d with
  | nil =>
      intro acc _ _ _
      simp [normAux]
  | cons kv rest ih =>
      intro acc hstable hnodup hfresh
      rcases kv with ⟨k, v⟩
      obtain ⟨hk, hvnone, hvempty, hnv⟩ := hstable (k, v) (by simp)
      simp only [normAux]
      rw [if_neg (by simp [hvnone, hvempty])]
      have hrk : renameKey k = k := by
        unfold renameKey
        rw [if_neg hk]
      rw [hrk, hnv]
      have hkfresh : ¬ acc.any (fun p => p.1 = k) :=
        hfresh k (by simp)
      have hins : dictInsert acc k v = acc ++ [(k, v)] := by
        unfold dictInsert
        rw [if_neg hkfresh]
      rw [hins]
      have hknot : k ∉ rest.map Prod.fst := by
        have := hnodup
        simp only [List.map_cons, List.nodup_cons] at this
        exact this.1
      have hrec := ih (acc ++ [(k, v)])
        (fun x hx => hstable x (List.mem_cons_of_mem _ hx))
        (by
          simp only [List.map_cons, List.nodup_cons] at hnodup
          exact hnodup.2)
        (by
          intro kk hkk
          rw [List.any_append]
          simp only [Bool.or_eq_true, not_or]
          constructor
          · exact fun hcon =>
              hfresh kk (List.mem_cons_of_mem _ hkk) hcon
          · simp only [List.any_cons, List.any_nil, Bool.or_false,
              decide_eq_true_eq]
            intro h0
            exact hknot (h0 ▸ hkk))
      rw [hrec, List.append_assoc]
      rfl

/-- C6 counterexample: a single-space value strips to the empty string on
the first pass and is dropped on the second, so normalize is not
idempotent as claimed. -/
theorem C6_normalize_counterexample :
    normalizeParams (normalizeParams [("q", .vStr " ")]) ≠
      normalizeParams [("q", .vStr " ")] := by
  decide

/-- C6 (amended): normalize is idempotent on every parameter mapping with
no non-empty whitespace-only string value under a non-driver key (after
the season rename); such a value strips to the empty string on the first
pass and is dropped on the second. -/
theorem C6_normalize_idem_amended (ps : List (String × PValue))
    (hsafe : ∀ kv ∈ ps, stripSafe kv) :
    normalizeParams (normalizeParams ps) = normalizeParams ps := by
  unfold normalizeParams
  have hnodup : ((normAux [] ps).map Prod.fst).Nodup :=
    normAux_keys_nodup ps [] (by simp)
  have hstable : ∀ kv ∈ normAux [] ps, stablePair kv := by
    intro kv hkv
    rcases normAux_mem ps [] kv hkv with h0 | ⟨k0, v0, hm, hk1, hk2, hvn, hve⟩
    · simp at h0
    · refine ⟨?_, ?_, ?_, ?_⟩
      · rw [hk1]
        unfold renameKey
        split
        · simp
        · rename_i hne
          exact hne
      · rw [hk2]
        exact normValue_ne_vNone _ _ hvn
      · rw [hk2]
        apply normValue_ne_empty _ _ hve
        intro s hs hd
        exact hsafe (k0, v0) hm s hs hd
      · rw [hk1, hk2]
        exact normValue_idem _ _
  have hfresh : ∀ kk ∈ (normAux [] ps).map Prod.fst,
      ¬ ([] : Params).any (fun p => p.1 = kk) := by
    intro kk _
    simp
  simpa using normAux_stable (normAux [] ps) [] hstable hnodup hfresh

/-- C6 witness for the amended claim: a mapping with driver, year and a
trimmed-text value normalizes idempotently. -/
theorem C6_normalize_idem_witness :
    normalizeParams (normalizeParams
      [("season", .vStr " 2019 "), ("driver", .vStr "Lewis Hamilton"),
       ("q", .vStr "podiums"), ("x", .vNone)]) =
    normalizeParams
      [("season", .vStr " 2019 "), ("driver", .vStr "Lewis Hamilton"),
       ("q", .vStr "podiums"), ("x", .vNone)] :=
  C6_normalize_idem_amended
    [("season", .vStr " 2019 "), ("driver", .vStr "Lewis Hamilton"),
     ("q", .vStr "podiums"), ("x", .vNone)]
    (by
      intro kv hkv s hs hd hne
      simp only [List.mem_cons, List.not_mem_nil, or_false] at hkv
      rcases hkv with h | h | h | h
      · rw [h] at hs
        have hs2 : s = " 2019 " := (PValue.vStr.inj hs).symm
        rw [hs2]
        decide
      · rw [h] at hd
        exact absurd (by decide) hd
      · rw [h] at hs
        have hs2 : s = "podiums" := (PValue.vStr.inj hs).symm
        rw [hs2]
        decide
      · rw [h] at hs
        exact PValue.noConfusion hs)

end OrbitVI
